import Mathlib

/-!
Verification of the Southern Baseline Rules outlier-detection engine
(`backend/shared/southern_baseline_api.py`, class `SouthernBaselineAPI`).

The SQL pipeline of `_get_outliers_direct` (CTEs `StationData`,
`SouthernValidation`, `ValidSouthernStations`, `BaselineCalculation`,
`StationExpectations`, `OutlierDetection`, final SELECT) and the Python
result assembly are embedded as executable Lean definitions.

Modelling conventions:
- SQL double precision / Python float sea-level values are modelled
  exactly over `ℚ`; the claims under study are about the algebraic
  structure of the computation, not float rounding.
- `Tab_DateTime` values are modelled as natural numbers (seconds-like
  scale); the date strings of the public interface are converted by
  `dayNumber`, one day being 86400 units, mirroring
  `:date::timestamp + INTERVAL '1 day'` arithmetic.
- SQL `NULL` filtering (`Tab_Value_mDepthC1 IS NOT NULL`) is modelled by
  the value field being total: only non-null readings enter the relation.
- `_get_outliers_from_cache` builds its result dict and converts rows with
  byte-identical code to `_get_outliers_direct` (lines 188-217 vs 361-390);
  the shared definitions `convertRow` and `buildResult` embed both
  occurrences.  The materialized-view consultation itself is a cache of the
  same query and is not separately modelled.
- a failure of the statistics query (the `except` branch of
  `_get_validation_stats`) is modelled by the boolean `statsFail`
  parameter threaded to the result assembly.
-/

/-- One row of `StationData`: a non-null reading joined with its station
name (`Monitors_info2` ⋈ `Locations`). -/
structure Reading where
  t : ℕ
  station : String
  value : ℚ
deriving DecidableEq, Repr

/-- The station IN-list of the `StationData` CTE. -/
def monitoredStations : List String :=
  ["Acre", "Haifa", "Yafo", "Ashdod", "Ashkelon", "Eilat"]

/-- The southern reference set used in `SouthernValidation` and the
`ExcludedFromBaseline` CASE. -/
def refStations : List String := ["Yafo", "Ashdod", "Ashkelon"]

/-- `StationData` CTE: readings of the six monitored stations inside the
requested timestamp window. -/
def stationData (db : List Reading) (lo hi : ℕ) : List Reading :=
  db.filter (fun r => decide (lo ≤ r.t) && decide (r.t ≤ hi)
    && monitoredStations.contains r.station)

/-- The join of `SouthernValidation`: ordered pairs of reference-station
readings sharing a timestamp, with distinct stations. -/
def svPairs (sd : List Reading) : List (Reading × Reading) :=
  sd.flatMap (fun s1 =>
    (sd.filter (fun s2 => s1.t == s2.t && s1.station != s2.station
        && refStations.contains s1.station
        && refStations.contains s2.station)).map (fun s2 => (s1, s2)))

/-- The `AgreementCount` window aggregate of `SouthernValidation`:
`SUM(CASE WHEN ABS(s1-s2) <= 0.05 THEN 1 ELSE 0 END) OVER (PARTITION BY
Tab_DateTime, Station)`. -/
def partitionAgreementCount (sd : List Reading) (t : ℕ) (st : String) : ℕ :=
  ((svPairs sd).filter (fun p => p.1.t == t && p.1.station == st
      && decide (|p.1.value - p.2.value| ≤ 5/100))).length

/-- `ValidSouthernStations` CTE: `SELECT DISTINCT Tab_DateTime, Station,
SeaLevel FROM SouthernValidation WHERE AgreementCount >= 1`. -/
def validSouthern (sd : List Reading) : List Reading :=
  (((svPairs sd).filter
      (fun p => decide (1 ≤ partitionAgreementCount sd p.1.t p.1.station))).map
    Prod.fst).dedup

/-- Byte-wise comparison of char lists; the collation order under which the
database sorts the ASCII station names. -/
def charListLe : List Char → List Char → Bool
  | [], _ => true
  | _ :: _, [] => false
  | a :: as, b :: bs =>
    if a.toNat < b.toNat then true
    else if b.toNat < a.toNat then false
    else charListLe as bs

/-- Station-name ordering used by `ORDER BY "Station"` and
`STRING_AGG(... ORDER BY "Station")`. -/
def strLe (a b : String) : Bool := charListLe a.data b.data

/-- Sort station names ascending. -/
def sortNames (l : List String) : List String :=
  l.insertionSort (fun a b => strLe a b = true)

/-- `STRING_AGG("Station", ', ' ORDER BY "Station")`. -/
def stringAgg (names : List String) : String :=
  String.intercalate ", " (sortNames names)

/-- Sort rationals ascending (the `WITHIN GROUP (ORDER BY "SeaLevel")`). -/
def sortQ (l : List ℚ) : List ℚ := l.insertionSort (· ≤ ·)

/-- `PERCENTILE_CONT(0.5) WITHIN GROUP (ORDER BY v)`: with sorted values
`s₀ … s_{n-1}`, the row position is `0.5·(n-1) = k + f` and the result is
`s_k + f·(s_{k+1} - s_k)`. -/
def percentileCont05 (l : List ℚ) : ℚ :=
  let s := sortQ l
  let n := s.length
  let k := (n - 1) / 2
  let f : ℚ := ((n : ℚ) - 1) / 2 - ((n - 1) / 2 : ℕ)
  s.getD k 0 + f * (s.getD (k + 1) (s.getD k 0) - s.getD k 0)

/-- One row of `BaselineCalculation`. -/
structure BaselineRow where
  t : ℕ
  baseline : ℚ
  sources : ℕ
  stations : String
deriving DecidableEq, Repr

/-- `BaselineCalculation` CTE: per timestamp of `ValidSouthernStations`,
the interpolated median, the contributing count (`HAVING COUNT(*) >= 1`)
and the sorted comma-joined station names. -/
def baselineCalculation (sd : List Reading) : List BaselineRow :=
  (((validSouthern sd).map (·.t)).dedup).filterMap (fun t =>
    let grp := (validSouthern sd).filter (fun r => r.t == t)
    if 1 ≤ grp.length then
      some ⟨t, percentileCont05 (grp.map (·.value)), grp.length,
        stringAgg (grp.map (·.station))⟩
    else none)

/-- One row of the `StationExpectations` VALUES table. -/
structure StationExpectation where
  station : String
  expectedOffset : ℚ
  tolerance : ℚ
deriving DecidableEq, Repr

/-- The static calibration table of `_get_outliers_direct`. -/
def stationExpectations : List StationExpectation :=
  [⟨"Yafo", 0, 3/100⟩,
   ⟨"Ashdod", 0, 3/100⟩,
   ⟨"Ashkelon", 0, 3/100⟩,
   ⟨"Haifa", 4/100, 5/100⟩,
   ⟨"Acre", 8/100, 5/100⟩,
   ⟨"Eilat", 28/100, 6/100⟩]

/-- One row of the `OutlierDetection` CTE. -/
structure OutRow where
  t : ℕ
  station : String
  actual : ℚ
  baseline : ℚ
  baselineSources : ℕ
  baselineStations : String
  expectedOffset : ℚ
  tolerance : ℚ
  expectedValue : ℚ
  deviation : ℚ
  isOutlier : Bool
  excludedFromBaseline : Bool
deriving DecidableEq, Repr

/-- The column list of the `OutlierDetection` CTE for one joined triple
(reading, baseline row, calibration row). -/
def detectionRow (sd : List Reading) (r : Reading) (bc : BaselineRow)
    (se : StationExpectation) : OutRow :=
  { t := r.t
    station := r.station
    actual := r.value
    baseline := bc.baseline
    baselineSources := bc.sources
    baselineStations := bc.stations
    expectedOffset := se.expectedOffset
    tolerance := se.tolerance
    expectedValue := bc.baseline + se.expectedOffset
    deviation := |r.value - (bc.baseline + se.expectedOffset)|
    isOutlier := decide
      (se.tolerance < |r.value - (bc.baseline + se.expectedOffset)|)
    excludedFromBaseline := refStations.contains r.station &&
      !((validSouthern sd).any
        (fun v => v.t == r.t && v.station == r.station)) }

/-- `OutlierDetection` CTE: `StationData` INNER JOIN `BaselineCalculation`
ON the timestamp, INNER JOIN `StationExpectations` ON the station name. -/
def outlierDetection (sd : List Reading) : List OutRow :=
  sd.flatMap (fun r =>
    ((baselineCalculation sd).filter (fun bc => bc.t == r.t)).flatMap (fun bc =>
      (stationExpectations.filter (fun se => se.station == r.station)).map
        (fun se => detectionRow sd r bc se)))

/-- `ORDER BY "Tab_DateTime" DESC, "Station"` of the final SELECT. -/
def outOrder (a b : OutRow) : Prop :=
  b.t < a.t ∨ (a.t = b.t ∧ strLe a.station b.station = true)

instance : DecidableRel outOrder := fun a b => by
  unfold outOrder; infer_instance

/-- The final SELECT: rows with `IsOutlier OR ExcludedFromBaseline`,
narrowed by the station filter, ordered by timestamp descending then
station ascending. -/
def finalRows (sd : List Reading) (station : String) : List OutRow :=
  ((outlierDetection sd).filter
      (fun row => (row.isOutlier || row.excludedFromBaseline)
        && (station == "All Stations" || row.station == station))).insertionSort
    outOrder

/-- PostgreSQL `ROUND(x::numeric, 2)`: numeric rounding, halves away from
zero. -/
def pgRound2 (x : ℚ) : ℚ :=
  if 0 ≤ x then (⌊x * 100 + 1/2⌋ : ℚ) / 100
  else -((⌊-x * 100 + 1/2⌋ : ℚ) / 100)

/-- Python `round(x, 2)`: halves to even, modelled exactly over `ℚ`. -/
def pyRound2 (x : ℚ) : ℚ :=
  let y := x * 100
  let fl := ⌊y⌋
  let r : ℤ :=
    if y - fl < 1/2 then fl
    else if 1/2 < y - fl then fl + 1
    else if fl % 2 = 0 then fl else fl + 1
  (r : ℚ) / 100

/-- The outlier record dict built by the row-conversion loop
(`_get_outliers_direct` lines 361-376, identically
`_get_outliers_from_cache` lines 188-203).  Numeric fields pass through
Python truthiness: `float(row[i]) if row[i] else None` (or `else 0`). -/
structure OutPayload where
  tabDateTime : Option ℕ
  station : String
  tabValue : Option ℚ
  expectedValue : Option ℚ
  baseline : Option ℚ
  baselineSources : ℕ
  baselineStations : String
  deviation : ℚ
  deviationCm : ℚ
  tolerance : ℚ
  isOutlier : Bool
  excludedFromBaseline : Bool
deriving DecidableEq, Repr

/-- Row-to-dict conversion.  `DeviationCm` is the final SELECT's
`ROUND("Deviation"::numeric * 100, 2)` passed through `float(x) if x else
0`.  A datetime object is always truthy and non-null, so `Tab_DateTime`
is always `some`. -/
def convertRow (r : OutRow) : OutPayload :=
  { tabDateTime := some r.t
    station := r.station
    tabValue := if r.actual = 0 then none else some r.actual
    expectedValue := if r.expectedValue = 0 then none else some r.expectedValue
    baseline := if r.baseline = 0 then none else some r.baseline
    baselineSources := if r.baselineSources = 0 then 0 else r.baselineSources
    baselineStations := r.baselineStations
    deviation := if r.deviation = 0 then 0 else r.deviation
    deviationCm := if pgRound2 (r.deviation * 100) = 0 then 0
      else pgRound2 (r.deviation * 100)
    tolerance := if r.tolerance = 0 then 0 else r.tolerance
    isOutlier := r.isOutlier
    excludedFromBaseline := r.excludedFromBaseline }

/-- The validation statistics dict of `_get_validation_stats`. -/
structure ValidationStats where
  totalValidations : ℕ
  totalRecords : ℕ
  totalTimestamps : ℕ
  stationsCount : ℕ
  southernRecords : ℕ
  southernTimestamps : ℕ
deriving DecidableEq, Repr

/-- The zeroed statistics returned when the statistics query fails (or
returns no row). -/
def zeroStats : ValidationStats := ⟨0, 0, 0, 0, 0, 0⟩

/-- The statistics SELECT over `StationData`.  Note the Python mapping
reads `row[4]` (`SouthernTimestamps`) for both `total_validations` and
`southern_timestamps`. -/
def statsFromData (sd : List Reading) : ValidationStats :=
  let southern := sd.filter (fun r => refStations.contains r.station)
  { totalValidations := ((southern.map (·.t)).dedup).length
    totalRecords := sd.length
    totalTimestamps := ((sd.map (·.t)).dedup).length
    stationsCount := ((sd.map (·.station)).dedup).length
    southernRecords := southern.length
    southernTimestamps := ((southern.map (·.t)).dedup).length }

/-- The outlier response.  `validation = none` models the bare `{}` of the
error path; a successful path always carries a full statistics dict. -/
structure ApiResult where
  error : Option String
  totalRecords : ℕ
  outliersDetected : ℕ
  outlierPercentage : ℚ
  validation : Option ValidationStats
  outliers : List OutPayload
deriving DecidableEq, Repr

/-- The result dict of `_get_outliers_direct` lines 381-390 (identically
`_get_outliers_from_cache` lines 208-217). -/
def buildResult (outliers : List OutPayload) (validation : ValidationStats) :
    ApiResult :=
  { error := none
    totalRecords := validation.totalRecords
    outliersDetected := outliers.length
    outlierPercentage :=
      if 0 < validation.totalRecords then
        pyRound2 ((outliers.length : ℚ) / validation.totalRecords * 100)
      else 0
    validation := some validation
    outliers := outliers }

/-- `_get_outliers_direct`: run the pipeline on the window `[lo, hi]`,
convert rows, and attach the statistics (zeroed when that query fails). -/
def getOutliersDirect (lo hi : ℕ) (station : String) (db : List Reading)
    (statsFail : Bool) : ApiResult :=
  let sd := stationData db lo hi
  buildResult ((finalRows sd station).map convertRow)
    (if statsFail then zeroStats else statsFromData sd)

/-- The error dict of the `except ValueError` branch of `get_outliers`. -/
def invalidDateResult : ApiResult :=
  { error := some "Invalid date format. Use YYYY-MM-DD"
    totalRecords := 0
    outliersDetected := 0
    outlierPercentage := 0
    validation := none
    outliers := [] }

/-- Split a char list on a separator char (used to model
`datetime.strptime(s, "%Y-%m-%d")`, whose pattern is anchored on the two
dashes). -/
def splitOnChar (c : Char) : List Char → List (List Char)
  | [] => [[]]
  | a :: rest =>
    let r := splitOnChar c rest
    if a = c then [] :: r
    else (a :: r.headD []) :: r.tail

/-- Digits-to-number (callers guarantee all chars are digits). -/
def digitsToNat (l : List Char) : ℕ :=
  l.foldl (fun n c => 10 * n + (c.toNat - 48)) 0

/-- Gregorian leap year, as `datetime` uses. -/
def isLeap (y : ℕ) : Bool := (y % 4 = 0 && y % 100 != 0) || y % 400 = 0

/-- Days in a month, as `datetime` validates. -/
def daysInMonth (y m : ℕ) : ℕ :=
  if m = 2 then (if isLeap y then 29 else 28)
  else if m = 4 ∨ m = 6 ∨ m = 9 ∨ m = 11 then 30
  else 31

/-- `datetime.strptime(s, "%Y-%m-%d")`: exactly three dash-separated
fields, a 4-digit year, a 1-2 digit month in 1..12, a 1-2 digit day valid
for that month, year at least `MINYEAR = 1`.  Returns the parsed
(year, month, day) or `none` on `ValueError`. -/
def parseDate (s : String) : Option (ℕ × ℕ × ℕ) :=
  match splitOnChar '-' s.data with
  | [ys, ms, ds] =>
    if ys.length = 4 && ys.all (·.isDigit)
        && (ms.length = 1 || ms.length = 2) && ms.all (·.isDigit)
        && (ds.length = 1 || ds.length = 2) && ds.all (·.isDigit) then
      let y := digitsToNat ys
      let m := digitsToNat ms
      let d := digitsToNat ds
      if 1 ≤ y && 1 ≤ m && m ≤ 12 && 1 ≤ d && d ≤ daysInMonth y m then
        some (y, m, d)
      else none
    else none
  | _ => none

/-- Proleptic-Gregorian day number (the `date.toordinal` of `datetime`). -/
def dayNumber (ymd : ℕ × ℕ × ℕ) : ℕ :=
  let y := ymd.1
  let m := ymd.2.1
  let d := ymd.2.2
  let daysBefore := (List.range (m - 1)).foldl
    (fun acc i => acc + daysInMonth y (i + 1)) 0
  365 * (y - 1) + (y - 1) / 4 - (y - 1) / 100 + (y - 1) / 400 + daysBefore
    + (d - 1)

/-- `get_outliers` with explicit date strings: validate the two dates; on
`ValueError` return the error dict without touching the database;
otherwise run the computation over `[start, end + 1 day]` (the direct
path; the materialized-view path caches the same computation). -/
def getOutliers (startDate endDate station : String) (db : List Reading)
    (statsFail : Bool) : ApiResult :=
  match parseDate startDate, parseDate endDate with
  | some sdt, some edt =>
    getOutliersDirect (86400 * dayNumber sdt) (86400 * dayNumber edt + 86400)
      station db statsFail
  | _, _ => invalidDateResult

/-! ### Specification-side definitions

The following definitions transcribe the specification's wording, to be
compared with the SQL embedding above. -/

/-- Modelled from the spec: "agreement_count = number of other
reference-station readings at that timestamp within the agreement
threshold (0.05 units)". -/
def specAgreementCount (sd : List Reading) (r : Reading) : ℕ :=
  (sd.filter (fun s2 => decide (s2.t = r.t) && decide (s2.station ≠ r.station)
      && refStations.contains s2.station
      && decide (|r.value - s2.value| ≤ 5/100))).length

/-- Modelled from the spec: the validated reference readings at a
timestamp — reference-station readings whose agreement count is at least
one. -/
def specValidatedAt (sd : List Reading) (t : ℕ) : List Reading :=
  sd.filter (fun r => decide (r.t = t) && refStations.contains r.station
    && decide (1 ≤ specAgreementCount sd r))

/-- Modelled from the spec: the statistical median — middle element of the
sorted values for an odd count, mean of the two middle elements for an
even count. -/
def specMedian (l : List ℚ) : ℚ :=
  let s := sortQ l
  if s.length % 2 = 1 then s.getD (s.length / 2) 0
  else (s.getD (s.length / 2 - 1) 0 + s.getD (s.length / 2) 0) / 2

/-! ### The interpolated percentile at 0.5 is the statistical median -/

theorem getD_of_lt (l : List ℚ) (i : ℕ) (d : ℚ) (h : i < l.length) :
    l.getD i d = l[i] := by
  simp [List.getD_eq_getElem?_getD, List.getElem?_eq_getElem h]

theorem percentileCont05_eq_specMedian (l : List ℚ) (h : l ≠ []) :
    percentileCont05 l = specMedian l := by
  have hslen : (sortQ l).length = l.length :=
    List.length_insertionSort _ l
  have hlen0 : (sortQ l).length ≠ 0 := by
    rw [hslen]
    simpa [List.length_eq_zero] using h
  simp only [percentileCont05, specMedian]
  set s := sortQ l with hs
  rcases Nat.even_or_odd s.length with ⟨m, hm⟩ | ⟨m, hm⟩
  · have hm1 : 1 ≤ m := by omega
    rw [if_neg (show ¬ s.length % 2 = 1 by omega)]
    rw [show (s.length - 1) / 2 = m - 1 from by omega]
    rw [show s.length / 2 = m from by omega]
    rw [show ((m - 1 : ℕ) : ℚ) = (m : ℚ) - 1 from Nat.cast_sub hm1]
    rw [show ((s.length : ℕ) : ℚ) = 2 * (m : ℚ) from by rw [hm]; push_cast; ring]
    rw [show (2 * (m : ℚ) - 1) / 2 - ((m : ℚ) - 1) = 1/2 from by ring]
    rw [show m - 1 + 1 = m from by omega]
    have hmlt : m < s.length := by omega
    have hm1lt : m - 1 < s.length := by omega
    rw [getD_of_lt s m _ hmlt, getD_of_lt s (m - 1) _ hm1lt,
      getD_of_lt s m _ hmlt]
    ring
  · rw [if_pos (show s.length % 2 = 1 by omega)]
    rw [show (s.length - 1) / 2 = m from by omega]
    rw [show s.length / 2 = m from by omega]
    rw [show ((s.length : ℕ) : ℚ) = 2 * (m : ℚ) + 1 from by
      rw [hm]; push_cast; ring]
    rw [show (2 * (m : ℚ) + 1 - 1) / 2 - (m : ℚ) = 0 from by ring]
    ring

/-! ### The station-name ordering is a linear order -/

theorem charLe_antisymm_aux {a b : Char} (h : a.toNat = b.toNat) : a = b := by
  have := congrArg Char.ofNat h
  simpa [Char.ofNat_toNat] using this

theorem charListLe_total : ∀ l1 l2 : List Char,
    charListLe l1 l2 = true ∨ charListLe l2 l1 = true
  | [], _ => Or.inl rfl
  | _ :: _, [] => Or.inr rfl
  | a :: as, b :: bs => by
    simp only [charListLe]
    rcases Nat.lt_trichotomy a.toNat b.toNat with h | h | h
    · left; rw [if_pos h]
    · rw [if_neg (by omega), if_neg (by omega), if_neg (by omega),
        if_neg (by omega)]
      exact charListLe_total as bs
    · right; rw [if_pos h]

theorem charListLe_trans : ∀ l1 l2 l3 : List Char,
    charListLe l1 l2 = true → charListLe l2 l3 = true →
    charListLe l1 l3 = true
  | [], _, _, _, _ => rfl
  | a :: as, [], _, h, _ => by simp [charListLe] at h
  | a :: as, b :: bs, [], _, h => by simp [charListLe] at h
  | a :: as, b :: bs, c :: cs, h1, h2 => by
    simp only [charListLe] at h1 h2 ⊢
    split_ifs at h1 h2 ⊢ <;>
      first
        | rfl
        | omega
        | exact charListLe_trans as bs cs h1 h2
        | exact (Bool.false_ne_true h1).elim
        | exact (Bool.false_ne_true h2).elim

theorem charListLe_antisymm : ∀ l1 l2 : List Char,
    charListLe l1 l2 = true → charListLe l2 l1 = true → l1 = l2
  | [], [], _, _ => rfl
  | [], _ :: _, _, h => by simp [charListLe] at h
  | _ :: _, [], h, _ => by simp [charListLe] at h
  | a :: as, b :: bs, h1, h2 => by
    simp only [charListLe] at h1 h2
    split_ifs at h1 h2 <;>
      first
        | omega
        | exact (Bool.false_ne_true h1).elim
        | exact (Bool.false_ne_true h2).elim
        | rw [charLe_antisymm_aux (show a.toNat = b.toNat by omega),
            charListLe_antisymm as bs h1 h2]

theorem strLe_total (a b : String) : strLe a b = true ∨ strLe b a = true :=
  charListLe_total a.data b.data

theorem strLe_trans {a b c : String} (h1 : strLe a b = true)
    (h2 : strLe b c = true) : strLe a c = true :=
  charListLe_trans a.data b.data c.data h1 h2

theorem strLe_antisymm {a b : String} (h1 : strLe a b = true)
    (h2 : strLe b a = true) : a = b := by
  cases a with
  | mk da =>
    cases b with
    | mk db =>
      have := charListLe_antisymm da db h1 h2
      rw [this]

instance : IsTotal String (fun a b => strLe a b = true) := ⟨strLe_total⟩

instance : IsTrans String (fun a b => strLe a b = true) :=
  ⟨fun _ _ _ => strLe_trans⟩

instance : IsAntisymm String (fun a b => strLe a b = true) :=
  ⟨fun _ _ => strLe_antisymm⟩

theorem sortNames_eq_of_perm {l1 l2 : List String} (h : l1.Perm l2) :
    sortNames l1 = sortNames l2 := by
  apply List.eq_of_perm_of_sorted
    (r := fun a b => strLe a b = true)
  · exact ((List.perm_insertionSort _ l1).trans h).trans
      (List.perm_insertionSort _ l2).symm
  · exact List.sorted_insertionSort _ l1
  · exact List.sorted_insertionSort _ l2

theorem sortQ_eq_of_perm {l1 l2 : List ℚ} (h : l1.Perm l2) :
    sortQ l1 = sortQ l2 := by
  apply List.eq_of_perm_of_sorted (r := fun a b : ℚ => a ≤ b)
  · exact ((List.perm_insertionSort _ l1).trans h).trans
      (List.perm_insertionSort _ l2).symm
  · exact List.sorted_insertionSort _ l1
  · exact List.sorted_insertionSort _ l2

theorem percentileCont05_eq_of_perm {l1 l2 : List ℚ} (h : l1.Perm l2) :
    percentileCont05 l1 = percentileCont05 l2 := by
  unfold percentileCont05
  rw [show sortQ l1 = sortQ l2 from sortQ_eq_of_perm h]

theorem stringAgg_eq_of_perm {l1 l2 : List String} (h : l1.Perm l2) :
    stringAgg l1 = stringAgg l2 := by
  unfold stringAgg
  rw [sortNames_eq_of_perm h]

/-! ### Characterisation of the validation stage -/

/-- The data-model assumption that a reading is uniquely identified by
(timestamp, station): no two rows of the relation share that key. -/
def UniqueKeys (sd : List Reading) : Prop :=
  sd.Pairwise (fun a b => ¬(a.t = b.t ∧ a.station = b.station))

theorem contains_true_iff {l : List String} {a : String} :
    l.contains a = true ↔ a ∈ l := by
  induction l with
  | nil => simp
  | cons x xs ih =>
    simp [List.contains_cons, Bool.or_eq_true, beq_iff_eq, ih, List.mem_cons]

theorem keyUnique {sd : List Reading} (hu : UniqueKeys sd) {a b : Reading}
    (ha : a ∈ sd) (hb : b ∈ sd) (ht : a.t = b.t) (hst : a.station = b.station) :
    a = b := by
  induction sd with
  | nil => cases ha
  | cons x xs ih =>
    rw [UniqueKeys, List.pairwise_cons] at hu
    rcases List.mem_cons.mp ha with rfl | ha' <;>
      rcases List.mem_cons.mp hb with rfl | hb'
    · rfl
    · exact absurd ⟨ht, hst⟩ (hu.1 b hb')
    · exact absurd ⟨ht.symm, hst.symm⟩ (hu.1 a ha')
    · exact ih hu.2 ha' hb'

theorem uniqueKeys_nodup {sd : List Reading} (hu : UniqueKeys sd) :
    sd.Nodup :=
  hu.imp (fun h he => h (by rw [he]; exact ⟨rfl, rfl⟩))

set_option maxRecDepth 4000 in
/-- Membership in the `SouthernValidation` join. -/
theorem mem_svPairs {sd : List Reading} {p : Reading × Reading} :
    p ∈ svPairs sd ↔ p.1 ∈ sd ∧ p.2 ∈ sd ∧ p.1.t = p.2.t
      ∧ p.1.station ≠ p.2.station ∧ p.1.station ∈ refStations
      ∧ p.2.station ∈ refStations := by
  unfold svPairs
  rw [List.mem_flatMap]
  constructor
  · rintro ⟨s1, hs1, hp⟩
    rw [List.mem_map] at hp
    obtain ⟨s2, hs2, rfl⟩ := hp
    rw [List.mem_filter] at hs2
    obtain ⟨hs2m, hcond⟩ := hs2
    simp only [Bool.and_eq_true, beq_iff_eq, bne_iff_ne, ne_eq,
      contains_true_iff] at hcond
    exact ⟨hs1, hs2m, hcond.1.1.1, hcond.1.1.2, hcond.1.2, hcond.2⟩
  · rintro ⟨h1, h2, ht, hst, hr1, hr2⟩
    refine ⟨p.1, h1, ?_⟩
    rw [List.mem_map]
    refine ⟨p.2, ?_, rfl⟩
    rw [List.mem_filter]
    refine ⟨h2, ?_⟩
    simp only [Bool.and_eq_true, beq_iff_eq, bne_iff_ne, ne_eq,
      contains_true_iff]
    exact ⟨⟨⟨ht, hst⟩, hr1⟩, hr2⟩

/-- Under unique (timestamp, station) keys, the window aggregate
`AgreementCount` of a reference reading equals the specification's
per-reading agreement count. -/
theorem pac_eq_spec (sd : List Reading) (hu : UniqueKeys sd) (r : Reading)
    (hr : r ∈ sd) (href : r.station ∈ refStations) :
    partitionAgreementCount sd r.t r.station = specAgreementCount sd r := by
  obtain ⟨u, v, huv⟩ := List.append_of_mem hr
  have hkey : ∀ x, x ∈ u ++ v → ¬(x.t = r.t ∧ x.station = r.station) := by
    rw [huv, UniqueKeys, List.pairwise_append] at hu
    intro x hx
    rcases List.mem_append.mp hx with hxu | hxv
    · exact hu.2.2 x hxu r (List.mem_cons_self _ _)
    · have := (List.pairwise_cons.mp hu.2.1).1 x hxv
      exact fun hc => this ⟨hc.1.symm, hc.2.symm⟩
  unfold partitionAgreementCount specAgreementCount svPairs
  rw [huv]
  rw [List.filter_flatMap]
  rw [List.flatMap_append, List.flatMap_cons, List.length_append,
    List.length_append]
  have hempty : ∀ x, x ∈ u ++ v →
      ((((u ++ r :: v).filter (fun s2 => x.t == s2.t && x.station != s2.station
          && refStations.contains x.station
          && refStations.contains s2.station)).map
        (fun s2 => (x, s2))).filter (fun p => p.1.t == r.t
          && p.1.station == r.station
          && decide (|p.1.value - p.2.value| ≤ 5/100))) = [] := by
    intro x hx
    rw [List.filter_eq_nil_iff]
    intro p hp
    rw [List.mem_map] at hp
    obtain ⟨s2, _, rfl⟩ := hp
    simp only [Bool.and_eq_true, beq_iff_eq, decide_eq_true_eq, not_and]
    intro hts _
    exact hkey x hx hts
  have huz : (u.flatMap (fun s1 =>
      (((u ++ r :: v).filter (fun s2 => s1.t == s2.t && s1.station != s2.station
          && refStations.contains s1.station
          && refStations.contains s2.station)).map
        (fun s2 => (s1, s2))).filter (fun p => p.1.t == r.t
          && p.1.station == r.station
          && decide (|p.1.value - p.2.value| ≤ 5/100)))).length = 0 := by
    rw [List.length_eq_zero, List.flatMap_eq_nil_iff]
    exact fun x hx => hempty x (List.mem_append_left _ hx)
  have hvz : (v.flatMap (fun s1 =>
      (((u ++ r :: v).filter (fun s2 => s1.t == s2.t && s1.station != s2.station
          && refStations.contains s1.station
          && refStations.contains s2.station)).map
        (fun s2 => (s1, s2))).filter (fun p => p.1.t == r.t
          && p.1.station == r.station
          && decide (|p.1.value - p.2.value| ≤ 5/100)))).length = 0 := by
    rw [List.length_eq_zero, List.flatMap_eq_nil_iff]
    exact fun x hx => hempty x (List.mem_append_right _ hx)
  rw [huz, hvz, List.filter_map, List.length_map, List.filter_filter]
  rw [Nat.zero_add, Nat.add_zero]
  apply congrArg List.length
  apply List.filter_congr
  intro s2 _
  rw [Bool.eq_iff_iff]
  simp only [Function.comp, Bool.and_eq_true, beq_iff_eq, bne_iff_ne, ne_eq,
    decide_eq_true_eq, contains_true_iff, beq_self_eq_true]
  constructor
  · rintro ⟨⟨⟨_, _⟩, hagree⟩, ⟨⟨ht, hne⟩, _⟩, hc2⟩
    exact ⟨⟨⟨ht.symm, fun he => hne he.symm⟩, hc2⟩, hagree⟩
  · rintro ⟨⟨⟨ht, hne⟩, hc2⟩, hagree⟩
    exact ⟨⟨⟨trivial, trivial⟩, hagree⟩, ⟨⟨ht.symm, fun he => hne he.symm⟩,
      href⟩, hc2⟩

/-- Any row of `ValidSouthernStations` is a reference-station reading of
the underlying data. -/
theorem mem_validSouthern_dest {sd : List Reading} {r : Reading}
    (h : r ∈ validSouthern sd) : r ∈ sd ∧ r.station ∈ refStations := by
  unfold validSouthern at h
  rw [List.mem_dedup, List.mem_map] at h
  obtain ⟨p, hp, rfl⟩ := h
  rw [List.mem_filter] at hp
  have := mem_svPairs.mp hp.1
  exact ⟨this.1, this.2.2.2.2.1⟩

/-- Under unique keys, a reference-station reading is validated exactly
when its specification-level agreement count is at least one. -/
theorem mem_validSouthern (sd : List Reading) (hu : UniqueKeys sd)
    (r : Reading) (hr : r ∈ sd) (href : r.station ∈ refStations) :
    r ∈ validSouthern sd ↔ 1 ≤ specAgreementCount sd r := by
  unfold validSouthern
  rw [List.mem_dedup, List.mem_map]
  constructor
  · rintro ⟨p, hp, rfl⟩
    rw [List.mem_filter] at hp
    have hc := hp.2
    rw [decide_eq_true_eq] at hc
    rwa [pac_eq_spec sd hu p.1 hr href] at hc
  · intro hcount
    have hne : (sd.filter (fun s2 => decide (s2.t = r.t)
        && decide (s2.station ≠ r.station) && refStations.contains s2.station
        && decide (|r.value - s2.value| ≤ 5/100))) ≠ [] := by
      intro hnil
      rw [specAgreementCount, hnil] at hcount
      simp at hcount
    obtain ⟨s2, hs2⟩ := List.exists_mem_of_ne_nil _ hne
    rw [List.mem_filter] at hs2
    simp only [Bool.and_eq_true, decide_eq_true_eq, ne_eq,
      contains_true_iff] at hs2
    refine ⟨(r, s2), ?_, rfl⟩
    rw [List.mem_filter]
    constructor
    · exact mem_svPairs.mpr ⟨hr, hs2.1, hs2.2.1.1.1.symm,
        fun he => hs2.2.1.1.2 he.symm, href, hs2.2.1.2⟩
    · rw [decide_eq_true_eq]
      rw [pac_eq_spec sd hu r hr href]
      exact hcount

/-- Under unique keys, the rows of `ValidSouthernStations` at a timestamp
are a permutation of the specification's validated readings there. -/
theorem validSouthern_filter_perm (sd : List Reading) (hu : UniqueKeys sd)
    (t : ℕ) :
    ((validSouthern sd).filter (fun r => r.t == t)).Perm
      (specValidatedAt sd t) := by
  apply (List.perm_ext_iff_of_nodup ?_ ?_).mpr
  · intro x
    unfold specValidatedAt
    rw [List.mem_filter, List.mem_filter, beq_iff_eq]
    constructor
    · rintro ⟨hx, rfl⟩
      obtain ⟨hxs, hxref⟩ := mem_validSouthern_dest hx
      have := (mem_validSouthern sd hu x hxs hxref).mp hx
      refine ⟨hxs, ?_⟩
      simp only [Bool.and_eq_true, decide_eq_true_eq, contains_true_iff]
      exact ⟨⟨trivial, hxref⟩, this⟩
    · rintro ⟨hxs, hcond⟩
      simp only [Bool.and_eq_true, decide_eq_true_eq,
        contains_true_iff] at hcond
      exact ⟨(mem_validSouthern sd hu x hxs hcond.1.2).mpr hcond.2,
        hcond.1.1⟩
  · exact (List.nodup_dedup _).filter _
  · exact (uniqueKeys_nodup hu).filter _

/-- C1: for every timestamp with at least one validated reference reading,
the pipeline produces exactly one consensus row for that timestamp, whose
baseline is the statistical median of exactly the validated readings'
values (odd and even counts alike), whose source count is the number of
contributing readings, and whose station list is the sorted comma-joined
contributing station names. -/
theorem consensus_is_median_of_validated (db : List Reading) (lo hi t : ℕ)
    (hu : UniqueKeys (stationData db lo hi))
    (hne : specValidatedAt (stationData db lo hi) t ≠ []) :
    ∃ b ∈ baselineCalculation (stationData db lo hi),
      b.t = t
      ∧ b.baseline =
          specMedian ((specValidatedAt (stationData db lo hi) t).map (·.value))
      ∧ b.sources = (specValidatedAt (stationData db lo hi) t).length
      ∧ b.stations = String.intercalate ", "
          (sortNames ((specValidatedAt (stationData db lo hi) t).map (·.station)))
      ∧ ∀ b' ∈ baselineCalculation (stationData db lo hi), b'.t = t → b' = b := by
  set sd := stationData db lo hi with hsd
  have hperm := validSouthern_filter_perm sd hu t
  have hLne : (validSouthern sd).filter (fun r => r.t == t) ≠ [] := by
    intro h
    apply hne
    rw [← List.length_eq_zero]
    rw [← hperm.length_eq, h]
    rfl
  obtain ⟨r0, hr0⟩ :=
    List.exists_mem_of_ne_nil _ hLne
  have hr0' := List.mem_filter.mp hr0
  have ht : t ∈ ((validSouthern sd).map (·.t)).dedup := by
    rw [List.mem_dedup, List.mem_map]
    exact ⟨r0, hr0'.1, beq_iff_eq.mp hr0'.2⟩
  have hlen : 1 ≤ ((validSouthern sd).filter (fun r => r.t == t)).length := by
    have := List.length_pos.mpr hLne
    omega
  refine ⟨⟨t,
      percentileCont05 (((validSouthern sd).filter (fun r => r.t == t)).map (·.value)),
      ((validSouthern sd).filter (fun r => r.t == t)).length,
      stringAgg (((validSouthern sd).filter (fun r => r.t == t)).map (·.station))⟩,
    ?_, rfl, ?_, ?_, ?_, ?_⟩
  · rw [baselineCalculation, List.mem_filterMap]
    refine ⟨t, ht, ?_⟩
    simp only [if_pos hlen]
  · have hmapne : ((specValidatedAt sd t).map (·.value)) ≠ [] := by
      simpa [List.map_eq_nil_iff] using hne
    rw [percentileCont05_eq_of_perm (hperm.map (·.value)),
      percentileCont05_eq_specMedian _ hmapne]
  · exact hperm.length_eq
  · exact stringAgg_eq_of_perm (hperm.map (·.station))
  · intro b' hb' hb't
    rw [baselineCalculation, List.mem_filterMap] at hb'
    obtain ⟨t', _, hft⟩ := hb'
    by_cases hc : 1 ≤ ((validSouthern sd).filter (fun r => r.t == t')).length
    · simp only [if_pos hc, Option.some_inj] at hft
      have : t' = t := by rw [← hb't, ← hft]
      subst this
      rw [← hft]
    · simp only [if_neg hc] at hft
      cases hft

/-- Membership in the `OutlierDetection` CTE. -/
theorem mem_outlierDetection {sd : List Reading} {row : OutRow} :
    row ∈ outlierDetection sd ↔
      ∃ r ∈ sd, ∃ bc ∈ baselineCalculation sd, bc.t = r.t
        ∧ ∃ se ∈ stationExpectations, se.station = r.station
        ∧ row = detectionRow sd r bc se := by
  unfold outlierDetection
  rw [List.mem_flatMap]
  constructor
  · rintro ⟨r, hr, hrow⟩
    rw [List.mem_flatMap] at hrow
    obtain ⟨bc, hbc, hrow⟩ := hrow
    rw [List.mem_filter, beq_iff_eq] at hbc
    rw [List.mem_map] at hrow
    obtain ⟨se, hse, rfl⟩ := hrow
    rw [List.mem_filter, beq_iff_eq] at hse
    exact ⟨r, hr, bc, hbc.1, hbc.2, se, hse.1, hse.2, rfl⟩
  · rintro ⟨r, hr, bc, hbc, hbct, se, hse, hsest, rfl⟩
    refine ⟨r, hr, ?_⟩
    rw [List.mem_flatMap]
    refine ⟨bc, ?_, ?_⟩
    · rw [List.mem_filter, beq_iff_eq]
      exact ⟨hbc, hbct⟩
    · rw [List.mem_map]
      refine ⟨se, ?_, rfl⟩
      rw [List.mem_filter, beq_iff_eq]
      exact ⟨hse, hsest⟩

/-- A timestamp of a consensus row carries at least one validated
reading. -/
theorem baseline_t_mem {sd : List Reading} {b : BaselineRow}
    (hb : b ∈ baselineCalculation sd) :
    ∃ v ∈ validSouthern sd, v.t = b.t := by
  rw [baselineCalculation, List.mem_filterMap] at hb
  obtain ⟨t', ht', hft⟩ := hb
  by_cases hc : 1 ≤ ((validSouthern sd).filter (fun r => r.t == t')).length
  · simp only [if_pos hc, Option.some_inj] at hft
    rw [List.mem_dedup, List.mem_map] at ht'
    obtain ⟨v, hv, hvt⟩ := ht'
    exact ⟨v, hv, by rw [hvt, ← hft]⟩
  · simp only [if_neg hc] at hft
    cases hft

/-- If the specification validates nothing at a timestamp, the SQL
validation stage has no row there either (no unique-key assumption
needed). -/
theorem validSouthern_empty_of_spec_empty {sd : List Reading} {t : ℕ}
    (hzero : specValidatedAt sd t = []) :
    ∀ v ∈ validSouthern sd, v.t ≠ t := by
  intro v hv hvt
  unfold validSouthern at hv
  rw [List.mem_dedup, List.mem_map] at hv
  obtain ⟨p, hp, hfst⟩ := hv
  rw [List.mem_filter, decide_eq_true_eq] at hp
  have hpac := hp.2
  have hone : 0 < partitionAgreementCount sd p.1.t p.1.station := hpac
  rw [partitionAgreementCount, List.length_pos] at hone
  obtain ⟨q, hq⟩ := List.exists_mem_of_ne_nil _ hone
  rw [List.mem_filter] at hq
  obtain ⟨hqsv, hqcond⟩ := hq
  simp only [Bool.and_eq_true, beq_iff_eq, decide_eq_true_eq] at hqcond
  have hqm := mem_svPairs.mp hqsv
  have hq1spec : q.1 ∈ specValidatedAt sd t := by
    unfold specValidatedAt
    rw [List.mem_filter]
    refine ⟨hqm.1, ?_⟩
    simp only [Bool.and_eq_true, decide_eq_true_eq, contains_true_iff]
    refine ⟨⟨?_, hqm.2.2.2.2.1⟩, ?_⟩
    · rw [hqcond.1.1, hfst, hvt]
    · rw [specAgreementCount, Nat.one_le_iff_ne_zero]
      intro hlen0
      rw [List.length_eq_zero, List.filter_eq_nil_iff] at hlen0
      have hnil := hlen0
      refine hnil q.2 hqm.2.1 ?_
      simp only [Bool.and_eq_true, decide_eq_true_eq, contains_true_iff]
      exact ⟨⟨⟨hqm.2.2.1.symm, fun he => hqm.2.2.2.1 he.symm⟩,
        hqm.2.2.2.2.2⟩, hqcond.2⟩
  rw [hzero] at hq1spec
  cases hq1spec

/-- Membership in the final SELECT's result list. -/
theorem mem_finalRows {sd : List Reading} {row : OutRow} {station : String} :
    row ∈ finalRows sd station ↔ row ∈ outlierDetection sd
      ∧ ((row.isOutlier || row.excludedFromBaseline)
        && (station == "All Stations" || row.station == station)) = true := by
  unfold finalRows
  rw [(List.perm_insertionSort outOrder _).mem_iff, List.mem_filter]

/-- C2: a reference-station reading's `AgreementCount` is the number of
readings from the other reference stations at the same timestamp whose
value is within 0.05 units, and the reading is validated (appears in
`ValidSouthernStations`, hence contributes to the consensus) exactly when
that count is at least 1. -/
theorem agreement_count_and_validation (db : List Reading) (lo hi : ℕ)
    (hu : UniqueKeys (stationData db lo hi)) (r : Reading)
    (hr : r ∈ stationData db lo hi) (href : r.station ∈ refStations) :
    partitionAgreementCount (stationData db lo hi) r.t r.station
        = specAgreementCount (stationData db lo hi) r
      ∧ (r ∈ validSouthern (stationData db lo hi) ↔
          1 ≤ specAgreementCount (stationData db lo hi) r) :=
  ⟨pac_eq_spec _ hu r hr href, mem_validSouthern _ hu r hr href⟩

/-- C3: every classified row's expected value is the consensus baseline
plus the station's calibration offset, its deviation is the absolute
difference between actual and expected value, the outlier flag holds
exactly when the deviation strictly exceeds the station's tolerance, and
the row is emitted in the outliers list exactly when the outlier flag or
the excluded-from-baseline flag is set. -/
theorem outlier_rule_and_emission (db : List Reading) (lo hi : ℕ)
    (row : OutRow)
    (hrow : row ∈ outlierDetection (stationData db lo hi)) :
    (∃ bc ∈ baselineCalculation (stationData db lo hi),
        bc.t = row.t ∧ row.baseline = bc.baseline)
      ∧ (∃ se ∈ stationExpectations, se.station = row.station
          ∧ row.expectedValue = row.baseline + se.expectedOffset
          ∧ row.deviation = |row.actual - row.expectedValue|
          ∧ (row.isOutlier = true ↔ se.tolerance < row.deviation))
      ∧ (row ∈ finalRows (stationData db lo hi) "All Stations" ↔
          (row.isOutlier = true ∨ row.excludedFromBaseline = true)) := by
  obtain ⟨r, hr, bc, hbc, hbct, se, hse, hsest, rfl⟩ :=
    mem_outlierDetection.mp hrow
  refine ⟨⟨bc, hbc, hbct, rfl⟩, ⟨se, hse, hsest, rfl, rfl, ?_⟩, ?_⟩
  · simp [detectionRow]
  · rw [mem_finalRows]
    simp only [Bool.and_eq_true, Bool.or_eq_true, beq_self_eq_true,
      true_or, and_true]
    constructor
    · rintro ⟨_, hf⟩
      exact hf
    · intro hf
      exact ⟨hrow, hf⟩

/-- C4: a reference-station reading with no reference peer within 0.05
units at its timestamp never appears in `ValidSouthernStations` (so it
contributes nothing to the consensus), and every classified row at its
(timestamp, station) carries `ExcludedFromBaseline = TRUE`; classified
rows of non-reference stations always carry
`ExcludedFromBaseline = FALSE`. -/
theorem excluded_from_baseline_rule (db : List Reading) (lo hi : ℕ)
    (hu : UniqueKeys (stationData db lo hi)) (r : Reading)
    (hr : r ∈ stationData db lo hi) (href : r.station ∈ refStations)
    (hpeer : ∀ s2 ∈ stationData db lo hi, s2.t = r.t →
      s2.station ≠ r.station → s2.station ∈ refStations →
      ¬(|r.value - s2.value| ≤ 5/100)) :
    r ∉ validSouthern (stationData db lo hi)
      ∧ (∀ row ∈ outlierDetection (stationData db lo hi),
          row.t = r.t → row.station = r.station →
          row.excludedFromBaseline = true)
      ∧ (∀ row ∈ outlierDetection (stationData db lo hi),
          row.station ∉ refStations → row.excludedFromBaseline = false) := by
  set sd := stationData db lo hi with hsd
  have hcount : specAgreementCount sd r = 0 := by
    rw [specAgreementCount, List.length_eq_zero, List.filter_eq_nil_iff]
    intro s2 hs2
    simp only [Bool.and_eq_true, decide_eq_true_eq, contains_true_iff,
      not_and]
    intro hc hagree
    exact hpeer s2 hs2 hc.1.1 hc.1.2 hc.2 hagree
  have hnotval : r ∉ validSouthern sd := by
    rw [mem_validSouthern sd hu r hr href, hcount]
    omega
  refine ⟨hnotval, ?_, ?_⟩
  · intro row hrow hrt hrst
    obtain ⟨r', hr', bc, hbc, hbct, se, hse, hsest, rfl⟩ :=
      mem_outlierDetection.mp hrow
    have hrt' : r'.t = r.t := hrt
    have hrst' : r'.station = r.station := hrst
    simp only [detectionRow, Bool.and_eq_true, Bool.not_eq_true',
      contains_true_iff]
    constructor
    · rw [hrst']
      exact href
    · rw [← Bool.not_eq_true, List.any_eq_true]
      rintro ⟨v, hv, hvc⟩
      simp only [Bool.and_eq_true, beq_iff_eq] at hvc
      have hveq : v = r := by
        apply keyUnique hu (mem_validSouthern_dest hv).1 hr
        · rw [hvc.1, hrt']
        · rw [hvc.2, hrst']
      rw [hveq] at hv
      exact hnotval hv
  · intro row hrow hnref
    obtain ⟨r', hr', bc, hbc, hbct, se, hse, hsest, rfl⟩ :=
      mem_outlierDetection.mp hrow
    simp only [detectionRow] at hnref ⊢
    have : refStations.contains r'.station = false := by
      rw [← Bool.not_eq_true, contains_true_iff]
      exact hnref
    rw [this, Bool.false_and]

/-- C5: a timestamp with zero validated reference readings produces no
consensus row and no classified row at all. -/
theorem dropped_timestamps (db : List Reading) (lo hi t : ℕ)
    (hzero : specValidatedAt (stationData db lo hi) t = []) :
    (∀ b ∈ baselineCalculation (stationData db lo hi), b.t ≠ t)
      ∧ (∀ row ∈ outlierDetection (stationData db lo hi), row.t ≠ t) := by
  have hb : ∀ b ∈ baselineCalculation (stationData db lo hi), b.t ≠ t := by
    intro b hbm hbt
    obtain ⟨v, hv, hvt⟩ := baseline_t_mem hbm
    exact validSouthern_empty_of_spec_empty hzero v hv (by rw [hvt, hbt])
  refine ⟨hb, ?_⟩
  intro row hrow hrt
  obtain ⟨r, hr, bc, hbc, hbct, se, hse, hsest, rfl⟩ :=
    mem_outlierDetection.mp hrow
  exact hb bc hbc (by rw [hbct]; exact hrt)

/-- C6 (amended): a station absent from the calibration table is silently
omitted — every emitted record's station has a calibration row, and the
result is a normal non-error result; no distinct configuration failure is
ever produced. -/
theorem missing_calibration_silently_omitted (lo hi : ℕ) (station : String)
    (db : List Reading) (statsFail : Bool) :
    (getOutliersDirect lo hi station db statsFail).error = none
      ∧ ∀ p ∈ (getOutliersDirect lo hi station db statsFail).outliers,
          ∃ se ∈ stationExpectations, se.station = p.station := by
  refine ⟨rfl, ?_⟩
  intro p hp
  simp only [getOutliersDirect, buildResult] at hp
  rw [List.mem_map] at hp
  obtain ⟨row, hrow, rfl⟩ := hp
  obtain ⟨hdet, _⟩ := mem_finalRows.mp hrow
  obtain ⟨r, _, bc, _, _, se, hse, hsest, rfl⟩ := mem_outlierDetection.mp hdet
  exact ⟨se, hse, hsest⟩

/-- The percentage field of a built result obeys the guarded formula. -/
theorem buildResult_percentage (outs : List OutPayload)
    (stats : ValidationStats) :
    (buildResult outs stats).outlierPercentage
      = (if (buildResult outs stats).totalRecords = 0 then 0
          else pyRound2 (((buildResult outs stats).outliersDetected : ℚ)
            / (buildResult outs stats).totalRecords * 100)) := by
  simp only [buildResult]
  rcases Nat.eq_zero_or_pos stats.totalRecords with h | h
  · rw [if_neg (by omega), if_pos h]
  · rw [if_pos h, if_neg (by omega)]

/-- C7: in every result, `outliers_detected` is the length of the
outliers list and `outlier_percentage` is that count over `total_records`
times 100 rounded to two decimals, with 0 whenever `total_records` is 0
(so no division by zero occurs). -/
theorem outlier_percentage_formula (startS endS station : String)
    (db : List Reading) (statsFail : Bool) :
    (getOutliers startS endS station db statsFail).outliersDetected
        = (getOutliers startS endS station db statsFail).outliers.length
      ∧ (getOutliers startS endS station db statsFail).outlierPercentage
        = (if (getOutliers startS endS station db statsFail).totalRecords = 0
            then 0
            else pyRound2
              (((getOutliers startS endS station db statsFail).outliersDetected : ℚ)
                / (getOutliers startS endS station db statsFail).totalRecords
                * 100)) := by
  unfold getOutliers
  rcases parseDate startS with _ | sdt <;> rcases parseDate endS with _ | edt
  · exact ⟨rfl, by simp [invalidDateResult]⟩
  · exact ⟨rfl, by simp [invalidDateResult]⟩
  · exact ⟨rfl, by simp [invalidDateResult]⟩
  · exact ⟨rfl, buildResult_percentage _ _⟩

/-- C8: when either date string fails `strptime` validation, the call
returns the fixed error payload — a descriptive error string, all counts
zero, an empty outliers list — and the result does not depend on the
database (no computation is attempted). -/
theorem invalid_dates_short_circuit (startS endS station : String)
    (db : List Reading) (statsFail : Bool)
    (h : parseDate startS = none ∨ parseDate endS = none) :
    getOutliers startS endS station db statsFail = invalidDateResult
      ∧ invalidDateResult.error = some "Invalid date format. Use YYYY-MM-DD"
      ∧ invalidDateResult.totalRecords = 0
      ∧ invalidDateResult.outliersDetected = 0
      ∧ invalidDateResult.outlierPercentage = 0
      ∧ invalidDateResult.outliers = [] := by
  refine ⟨?_, rfl, rfl, rfl, rfl, rfl⟩
  unfold getOutliers
  rcases h with h | h
  · rw [h]
  · rw [h]
    rcases parseDate startS with _ | sdt <;> rfl

/-- C9: when the validation-statistics query fails, the statistics block
is returned entirely zeroed (not raised), while the outlier list, the
detected count and the non-error status are identical to those of a
successful statistics query. -/
theorem stats_failure_isolated (lo hi : ℕ) (station : String)
    (db : List Reading) :
    (getOutliersDirect lo hi station db true).validation = some zeroStats
      ∧ (getOutliersDirect lo hi station db true).outliers
        = (getOutliersDirect lo hi station db false).outliers
      ∧ (getOutliersDirect lo hi station db true).error = none
      ∧ (getOutliersDirect lo hi station db true).outliersDetected
        = (getOutliersDirect lo hi station db false).outliersDetected :=
  ⟨rfl, rfl, rfl, rfl⟩

/-- C10: every payload in the outliers list comes from a row via the
truthiness conversion, under which an actual value, expected value or
baseline of exactly 0.0 is reported as `None`, and only then — a genuine
zero reading is indistinguishable from a missing value. -/
theorem zero_values_reported_none (lo hi : ℕ) (station : String)
    (db : List Reading) (statsFail : Bool) (p : OutPayload)
    (hp : p ∈ (getOutliersDirect lo hi station db statsFail).outliers) :
    ∃ row ∈ finalRows (stationData db lo hi) station, p = convertRow row
      ∧ (p.tabValue = none ↔ row.actual = 0)
      ∧ (p.expectedValue = none ↔ row.expectedValue = 0)
      ∧ (p.baseline = none ↔ row.baseline = 0) := by
  simp only [getOutliersDirect, buildResult] at hp
  rw [List.mem_map] at hp
  obtain ⟨row, hrow, rfl⟩ := hp
  refine ⟨row, hrow, rfl, ?_, ?_, ?_⟩
  · by_cases h : row.actual = 0 <;> simp [convertRow, h]
  · by_cases h : row.expectedValue = 0 <;> simp [convertRow, h]
  · by_cases h : row.baseline = 0 <;> simp [convertRow, h]

/-! ### Concrete datasets for witnesses

`exDb` realises the spec's Scenario A (reference stations at 1.00, 1.02,
1.40) and Scenario B (Haifa, offset 0.04, tolerance 0.05, reading 1.12)
at timestamp 0, plus a timestamp 1 at which no two reference readings
agree. -/

def exDb : List Reading :=
  [⟨0, "Yafo", 1⟩, ⟨0, "Ashdod", 102/100⟩, ⟨0, "Ashkelon", 140/100⟩,
   ⟨0, "Haifa", 112/100⟩,
   ⟨1, "Yafo", 1⟩, ⟨1, "Ashkelon", 2⟩, ⟨1, "Haifa", 3/2⟩]

theorem exDb_sd : stationData exDb 0 10 = exDb := by
  norm_num [stationData, exDb, List.filter_cons, monitoredStations]

theorem exDb_svPairs : svPairs exDb =
    [(⟨0, "Yafo", 1⟩, ⟨0, "Ashdod", 102/100⟩),
     (⟨0, "Yafo", 1⟩, ⟨0, "Ashkelon", 140/100⟩),
     (⟨0, "Ashdod", 102/100⟩, ⟨0, "Yafo", 1⟩),
     (⟨0, "Ashdod", 102/100⟩, ⟨0, "Ashkelon", 140/100⟩),
     (⟨0, "Ashkelon", 140/100⟩, ⟨0, "Yafo", 1⟩),
     (⟨0, "Ashkelon", 140/100⟩, ⟨0, "Ashdod", 102/100⟩),
     (⟨1, "Yafo", 1⟩, ⟨1, "Ashkelon", 2⟩),
     (⟨1, "Ashkelon", 2⟩, ⟨1, "Yafo", 1⟩)] := by
  norm_num [svPairs, exDb, List.filter_cons, refStations, List.flatMap]
  all_goals simp

theorem exDb_pac_yafo0 : partitionAgreementCount exDb 0 "Yafo" = 1 := by
  rw [partitionAgreementCount, exDb_svPairs]
  norm_num [List.filter_cons, abs_le]
  all_goals simp

theorem exDb_pac_ashdod0 : partitionAgreementCount exDb 0 "Ashdod" = 1 := by
  rw [partitionAgreementCount, exDb_svPairs]
  norm_num [List.filter_cons, abs_le]
  all_goals simp

theorem exDb_pac_ashkelon0 : partitionAgreementCount exDb 0 "Ashkelon" = 0 := by
  rw [partitionAgreementCount, exDb_svPairs]
  norm_num [List.filter_cons, abs_le]
  all_goals simp

theorem exDb_pac_yafo1 : partitionAgreementCount exDb 1 "Yafo" = 0 := by
  rw [partitionAgreementCount, exDb_svPairs]
  norm_num [List.filter_cons, abs_le]
  all_goals simp

theorem exDb_pac_ashkelon1 : partitionAgreementCount exDb 1 "Ashkelon" = 0 := by
  rw [partitionAgreementCount, exDb_svPairs]
  norm_num [List.filter_cons, abs_le]
  all_goals simp

theorem exDb_validSouthern : validSouthern exDb =
    [⟨0, "Yafo", 1⟩, ⟨0, "Ashdod", 102/100⟩] := by
  rw [validSouthern, exDb_svPairs]
  norm_num [List.filter_cons, exDb_pac_yafo0, exDb_pac_ashdod0,
    exDb_pac_ashkelon0, exDb_pac_yafo1, exDb_pac_ashkelon1,
    List.dedup_cons_of_mem, List.dedup_cons_of_not_mem, Reading.mk.injEq]
  all_goals simp

theorem exDb_baseline :
    baselineCalculation exDb = [⟨0, 101/100, 2, "Ashdod, Yafo"⟩] := by
  have h1 : strLe "Yafo" "Ashdod" = false := by decide
  have h2 : String.intercalate ", " ["Ashdod", "Yafo"] = "Ashdod, Yafo" := by
    decide
  rw [baselineCalculation, exDb_validSouthern]
  norm_num [List.filter_cons, List.filterMap_cons, List.dedup_cons_of_mem,
    List.dedup_cons_of_not_mem, percentileCont05, sortQ, List.insertionSort,
    List.orderedInsert, stringAgg, sortNames, h1, h2, BaselineRow.mk.injEq]
  all_goals simp

/-- The four classified rows of `exDb` (timestamp 1 has no consensus and
is dropped by the inner join). -/
theorem exDb_outlierDetection : outlierDetection exDb =
    [⟨0, "Yafo", 1, 101/100, 2, "Ashdod, Yafo", 0, 3/100, 101/100, 1/100,
        false, false⟩,
     ⟨0, "Ashdod", 102/100, 101/100, 2, "Ashdod, Yafo", 0, 3/100, 101/100,
        1/100, false, false⟩,
     ⟨0, "Ashkelon", 140/100, 101/100, 2, "Ashdod, Yafo", 0, 3/100, 101/100,
        39/100, true, true⟩,
     ⟨0, "Haifa", 112/100, 101/100, 2, "Ashdod, Yafo", 4/100, 5/100, 105/100,
        7/100, true, false⟩] := by
  rw [outlierDetection, exDb_baseline]
  simp only [detectionRow, exDb_validSouthern]
  norm_num [exDb, List.filter_cons, List.flatMap, stationExpectations,
    OutRow.mk.injEq, abs_le, abs_eq, lt_abs, refStations, List.any_cons,
    List.any_nil]
  all_goals try simp
  all_goals repeat' apply And.intro
  all_goals first
    | norm_num [abs_eq]
    | (left; norm_num)
    | (right; norm_num)

theorem exDb_finalRows : finalRows exDb "All Stations" =
    [⟨0, "Ashkelon", 140/100, 101/100, 2, "Ashdod, Yafo", 0, 3/100, 101/100,
        39/100, true, true⟩,
     ⟨0, "Haifa", 112/100, 101/100, 2, "Ashdod, Yafo", 4/100, 5/100, 105/100,
        7/100, true, false⟩] := by
  have h : strLe "Ashkelon" "Haifa" = true := by decide
  rw [finalRows, exDb_outlierDetection]
  norm_num [List.filter_cons, List.insertionSort, List.orderedInsert,
    outOrder, h]

theorem exDb_specValidated0 : specValidatedAt exDb 0 =
    [⟨0, "Yafo", 1⟩, ⟨0, "Ashdod", 102/100⟩] := by
  norm_num [specValidatedAt, specAgreementCount, exDb, List.filter_cons,
    abs_le, refStations]
  all_goals simp

theorem exDb_specValidated1 : specValidatedAt exDb 1 = [] := by
  norm_num [specValidatedAt, specAgreementCount, exDb, List.filter_cons,
    abs_le, refStations]
  all_goals simp

/-- The Scenario-B row of `exDb` (Haifa: offset 0.04, tolerance 0.05,
consensus 1.01, reading 1.12). -/
def exHaifaRow : OutRow :=
  ⟨0, "Haifa", 112/100, 101/100, 2, "Ashdod, Yafo", 4/100, 5/100, 105/100,
    7/100, true, false⟩

/-- The Scenario-A excluded reference reading of `exDb`. -/
def exAshkelon : Reading := ⟨0, "Ashkelon", 140/100⟩

theorem exDb_uniqueKeys : UniqueKeys (stationData exDb 0 10) := by
  rw [exDb_sd]
  unfold UniqueKeys
  norm_num [exDb, List.pairwise_cons]
  all_goals decide

theorem consensus_witness :
    UniqueKeys (stationData exDb 0 10)
      ∧ specValidatedAt (stationData exDb 0 10) 0 ≠ []
      ∧ (∃ b ∈ baselineCalculation (stationData exDb 0 10),
          b.t = 0
          ∧ b.baseline = specMedian
              ((specValidatedAt (stationData exDb 0 10) 0).map (·.value))
          ∧ b.sources = (specValidatedAt (stationData exDb 0 10) 0).length
          ∧ b.stations = String.intercalate ", "
              (sortNames
                ((specValidatedAt (stationData exDb 0 10) 0).map (·.station)))
          ∧ ∀ b' ∈ baselineCalculation (stationData exDb 0 10),
              b'.t = 0 → b' = b) :=
  ⟨exDb_uniqueKeys,
   by rw [exDb_sd, exDb_specValidated0]; simp,
   consensus_is_median_of_validated exDb 0 10 0 exDb_uniqueKeys
     (by rw [exDb_sd, exDb_specValidated0]; simp)⟩

theorem agreement_witness :
    partitionAgreementCount (stationData exDb 0 10) exAshkelon.t
        exAshkelon.station
      = specAgreementCount (stationData exDb 0 10) exAshkelon
      ∧ (exAshkelon ∈ validSouthern (stationData exDb 0 10) ↔
          1 ≤ specAgreementCount (stationData exDb 0 10) exAshkelon) :=
  agreement_count_and_validation exDb 0 10 exDb_uniqueKeys exAshkelon
    (by rw [exDb_sd]; simp [exDb, exAshkelon])
    (by decide)

theorem emission_witness :
    (∃ bc ∈ baselineCalculation (stationData exDb 0 10),
        bc.t = exHaifaRow.t ∧ exHaifaRow.baseline = bc.baseline)
      ∧ (∃ se ∈ stationExpectations, se.station = exHaifaRow.station
          ∧ exHaifaRow.expectedValue = exHaifaRow.baseline + se.expectedOffset
          ∧ exHaifaRow.deviation = |exHaifaRow.actual - exHaifaRow.expectedValue|
          ∧ (exHaifaRow.isOutlier = true ↔ se.tolerance < exHaifaRow.deviation))
      ∧ (exHaifaRow ∈ finalRows (stationData exDb 0 10) "All Stations" ↔
          (exHaifaRow.isOutlier = true ∨ exHaifaRow.excludedFromBaseline = true)) :=
  outlier_rule_and_emission exDb 0 10 exHaifaRow
    (by rw [exDb_sd, exDb_outlierDetection]; simp [exHaifaRow])

theorem exclusion_witness :
    exAshkelon ∉ validSouthern (stationData exDb 0 10)
      ∧ (∀ row ∈ outlierDetection (stationData exDb 0 10),
          row.t = exAshkelon.t → row.station = exAshkelon.station →
          row.excludedFromBaseline = true)
      ∧ (∀ row ∈ outlierDetection (stationData exDb 0 10),
          row.station ∉ refStations → row.excludedFromBaseline = false) :=
  excluded_from_baseline_rule exDb 0 10 exDb_uniqueKeys exAshkelon
    (by rw [exDb_sd]; simp [exDb, exAshkelon])
    (by decide)
    (by
      rw [exDb_sd]
      intro s2 hs2 ht hst href
      simp only [exDb, exAshkelon, List.mem_cons, List.not_mem_nil,
        or_false] at hs2
      rcases hs2 with rfl | rfl | rfl | rfl | rfl | rfl | rfl <;>
        first
          | (exact absurd ht (by decide))
          | (exfalso; exact hst rfl)
          | (exact absurd href (by decide))
          | (norm_num [exAshkelon, abs_le]))

theorem dropped_witness :
    specValidatedAt (stationData exDb 0 10) 1 = []
      ∧ (∀ b ∈ baselineCalculation (stationData exDb 0 10), b.t ≠ 1)
      ∧ (∀ row ∈ outlierDetection (stationData exDb 0 10), row.t ≠ 1) :=
  ⟨by rw [exDb_sd, exDb_specValidated1],
   (dropped_timestamps exDb 0 10 1
      (by rw [exDb_sd, exDb_specValidated1])).1,
   (dropped_timestamps exDb 0 10 1
      (by rw [exDb_sd, exDb_specValidated1])).2⟩

/-! ### A dataset containing a station with no calibration row -/

def calibGapDb : List Reading :=
  [⟨0, "Yafo", 1⟩, ⟨0, "Ashdod", 1⟩, ⟨0, "Tel Baruch", 5⟩]

theorem cg_sd : stationData calibGapDb 0 10 =
    [⟨0, "Yafo", 1⟩, ⟨0, "Ashdod", 1⟩] := by
  norm_num [stationData, calibGapDb, List.filter_cons, monitoredStations]
  all_goals decide

theorem cg_svPairs : svPairs [⟨0, "Yafo", 1⟩, ⟨0, "Ashdod", 1⟩] =
    [(⟨0, "Yafo", 1⟩, ⟨0, "Ashdod", 1⟩),
     (⟨0, "Ashdod", 1⟩, ⟨0, "Yafo", 1⟩)] := by
  norm_num [svPairs, List.filter_cons, refStations, List.flatMap]
  all_goals simp

theorem cg_pac_yafo :
    partitionAgreementCount [⟨0, "Yafo", 1⟩, ⟨0, "Ashdod", 1⟩] 0 "Yafo"
      = 1 := by
  rw [partitionAgreementCount, cg_svPairs]
  norm_num [List.filter_cons, abs_le]
  all_goals simp

theorem cg_pac_ashdod :
    partitionAgreementCount [⟨0, "Yafo", 1⟩, ⟨0, "Ashdod", 1⟩] 0 "Ashdod"
      = 1 := by
  rw [partitionAgreementCount, cg_svPairs]
  norm_num [List.filter_cons, abs_le]
  all_goals simp

theorem cg_validSouthern : validSouthern [⟨0, "Yafo", 1⟩, ⟨0, "Ashdod", 1⟩] =
    [⟨0, "Yafo", 1⟩, ⟨0, "Ashdod", 1⟩] := by
  rw [validSouthern, cg_svPairs]
  norm_num [List.filter_cons, cg_pac_yafo, cg_pac_ashdod,
    List.dedup_cons_of_mem, List.dedup_cons_of_not_mem, Reading.mk.injEq]
  all_goals simp

theorem cg_baseline : baselineCalculation [⟨0, "Yafo", 1⟩, ⟨0, "Ashdod", 1⟩] =
    [⟨0, 1, 2, "Ashdod, Yafo"⟩] := by
  have h1 : strLe "Yafo" "Ashdod" = false := by decide
  have h2 : String.intercalate ", " ["Ashdod", "Yafo"] = "Ashdod, Yafo" := by
    decide
  rw [baselineCalculation, cg_validSouthern]
  norm_num [List.filter_cons, List.filterMap_cons, List.dedup_cons_of_mem,
    List.dedup_cons_of_not_mem, percentileCont05, sortQ, List.insertionSort,
    List.orderedInsert, stringAgg, sortNames, h1, h2, BaselineRow.mk.injEq]
  all_goals simp

theorem cg_outlierDetection :
    outlierDetection [⟨0, "Yafo", 1⟩, ⟨0, "Ashdod", 1⟩] =
    [⟨0, "Yafo", 1, 1, 2, "Ashdod, Yafo", 0, 3/100, 1, 0, false, false⟩,
     ⟨0, "Ashdod", 1, 1, 2, "Ashdod, Yafo", 0, 3/100, 1, 0, false, false⟩] := by
  rw [outlierDetection, cg_baseline]
  simp only [detectionRow, cg_validSouthern]
  norm_num [List.filter_cons, List.flatMap, stationExpectations,
    OutRow.mk.injEq, abs_le, abs_eq, lt_abs, refStations, List.any_cons,
    List.any_nil]
  all_goals try simp
  all_goals repeat' apply And.intro
  all_goals first
    | norm_num [abs_eq]
    | (left; norm_num)
    | (right; norm_num)

theorem cg_finalRows :
    finalRows [⟨0, "Yafo", 1⟩, ⟨0, "Ashdod", 1⟩] "All Stations" = [] := by
  rw [finalRows, cg_outlierDetection]
  norm_num [List.filter_cons, List.insertionSort]

/-- C6 counterexample: `calibGapDb` contains a reading at station
"Tel Baruch", absent from the calibration table, yet the call does not
fail loudly: it returns a normal error-free result from which the station
is silently absent — indistinguishable from a clean no-outlier result. -/
theorem calibration_gap_is_silent :
    (⟨0, "Tel Baruch", 5⟩ : Reading) ∈ calibGapDb
      ∧ (∀ se ∈ stationExpectations, se.station ≠ "Tel Baruch")
      ∧ (getOutliersDirect 0 10 "All Stations" calibGapDb false).error = none
      ∧ (getOutliersDirect 0 10 "All Stations" calibGapDb false).outliers
        = [] := by
  refine ⟨by simp [calibGapDb], by decide, rfl, ?_⟩
  simp only [getOutliersDirect, buildResult, cg_sd, cg_finalRows,
    List.map_nil]

theorem silent_omission_witness :
    (getOutliersDirect 0 10 "All Stations" calibGapDb false).error = none
      ∧ ∀ p ∈ (getOutliersDirect 0 10 "All Stations" calibGapDb
          false).outliers,
          ∃ se ∈ stationExpectations, se.station = p.station :=
  missing_calibration_silently_omitted 0 10 "All Stations" calibGapDb false

theorem invalid_date_witness :
    parseDate "2023-13-01" = none
      ∧ getOutliers "2023-13-01" "2023-01-02" "All Stations" exDb false
        = invalidDateResult :=
  ⟨rfl,
   (invalid_dates_short_circuit "2023-13-01" "2023-01-02" "All Stations"
      exDb false (Or.inl rfl)).1⟩

/-! ### A dataset whose emitted row has actual and baseline exactly 0 -/

def zeroDb : List Reading :=
  [⟨0, "Yafo", 1/100⟩, ⟨0, "Ashdod", -1/100⟩, ⟨0, "Eilat", 0⟩]

/-- The emitted Eilat row of `zeroDb`: a genuine 0.0 reading against a
consensus of exactly 0.0. -/
def exEilatRow : OutRow :=
  ⟨0, "Eilat", 0, 0, 2, "Ashdod, Yafo", 28/100, 6/100, 28/100, 28/100,
    true, false⟩

theorem z_sd : stationData zeroDb 0 10 = zeroDb := by
  norm_num [stationData, zeroDb, List.filter_cons, monitoredStations]

theorem z_svPairs : svPairs zeroDb =
    [(⟨0, "Yafo", 1/100⟩, ⟨0, "Ashdod", -1/100⟩),
     (⟨0, "Ashdod", -1/100⟩, ⟨0, "Yafo", 1/100⟩)] := by
  norm_num [svPairs, zeroDb, List.filter_cons, refStations, List.flatMap]
  all_goals simp

theorem z_pac_yafo : partitionAgreementCount zeroDb 0 "Yafo" = 1 := by
  rw [partitionAgreementCount, z_svPairs]
  norm_num [List.filter_cons, abs_le]
  all_goals simp

theorem z_pac_ashdod : partitionAgreementCount zeroDb 0 "Ashdod" = 1 := by
  rw [partitionAgreementCount, z_svPairs]
  norm_num [List.filter_cons, abs_le]
  all_goals simp

theorem z_validSouthern : validSouthern zeroDb =
    [⟨0, "Yafo", 1/100⟩, ⟨0, "Ashdod", -1/100⟩] := by
  rw [validSouthern, z_svPairs]
  norm_num [List.filter_cons, z_pac_yafo, z_pac_ashdod,
    List.dedup_cons_of_mem, List.dedup_cons_of_not_mem, Reading.mk.injEq]
  all_goals simp

theorem z_baseline : baselineCalculation zeroDb =
    [⟨0, 0, 2, "Ashdod, Yafo"⟩] := by
  have h1 : strLe "Yafo" "Ashdod" = false := by decide
  have h2 : String.intercalate ", " ["Ashdod", "Yafo"] = "Ashdod, Yafo" := by
    decide
  rw [baselineCalculation, z_validSouthern]
  norm_num [List.filter_cons, List.filterMap_cons, List.dedup_cons_of_mem,
    List.dedup_cons_of_not_mem, percentileCont05, sortQ, List.insertionSort,
    List.orderedInsert, stringAgg, sortNames, h1, h2, BaselineRow.mk.injEq]
  all_goals simp

theorem z_outlierDetection : outlierDetection zeroDb =
    [⟨0, "Yafo", 1/100, 0, 2, "Ashdod, Yafo", 0, 3/100, 0, 1/100,
        false, false⟩,
     ⟨0, "Ashdod", -1/100, 0, 2, "Ashdod, Yafo", 0, 3/100, 0, 1/100,
        false, false⟩,
     exEilatRow] := by
  rw [outlierDetection, z_baseline]
  simp only [detectionRow, z_validSouthern, exEilatRow]
  norm_num [zeroDb, List.filter_cons, List.flatMap, stationExpectations,
    OutRow.mk.injEq, abs_le, abs_eq, lt_abs, refStations, List.any_cons,
    List.any_nil]
  all_goals try simp
  all_goals repeat' apply And.intro
  all_goals first
    | norm_num [abs_eq]
    | (left; norm_num)
    | (right; norm_num)

theorem z_finalRows : finalRows zeroDb "All Stations" = [exEilatRow] := by
  rw [finalRows, z_outlierDetection]
  norm_num [List.filter_cons, List.insertionSort, List.orderedInsert,
    exEilatRow]

theorem zero_reading_witness :
    (∃ row ∈ finalRows (stationData zeroDb 0 10) "All Stations",
      convertRow exEilatRow = convertRow row
      ∧ ((convertRow exEilatRow).tabValue = none ↔ row.actual = 0)
      ∧ ((convertRow exEilatRow).expectedValue = none ↔
          row.expectedValue = 0)
      ∧ ((convertRow exEilatRow).baseline = none ↔ row.baseline = 0))
    ∧ (convertRow exEilatRow).tabValue = none
    ∧ (convertRow exEilatRow).baseline = none
    ∧ (convertRow exEilatRow).expectedValue = some (28/100)
    ∧ exEilatRow.actual = 0 ∧ exEilatRow.baseline = 0 :=
  ⟨zero_values_reported_none 0 10 "All Stations" zeroDb false
      (convertRow exEilatRow)
      (by
        simp only [getOutliersDirect, buildResult, z_sd, z_finalRows,
          List.map_cons, List.map_nil]
        simp),
   by norm_num [convertRow, exEilatRow],
   by norm_num [convertRow, exEilatRow],
   by norm_num [convertRow, exEilatRow],
   rfl, rfl⟩
